import Mathlib

/-!
Verification of the correlated colour temperature (CCT) module
(`colour/temperature/cct.py`).

The module's numeric code is embedded shallowly over `ℚ`:

* Python floats become exact rationals; arithmetic on them is translated
  operation by operation.
* `math.sqrt` (and the `** 0.5` power) has no rational counterpart, so each
  definition that needs it takes an explicit square-root oracle
  `s : ℚ → ℚ` as its first argument; theorems either hold for every oracle
  or state the hypotheses on `s` they need, and concrete instances use
  oracles that return the exact rational square root of every value they
  are actually applied to.
* Fallible Python code (a raised exception, an `IndexError`, a
  `ZeroDivisionError`, an undefined-name fallthrough) is embedded as
  `Option`/`Except` with `none`/`.error` on the failing paths.
-/

namespace CCT

/-- One *Robertson* iso-temperature line: reciprocal megakelvin `r`,
CIE 1960 coordinates `u`, `v` and slope `t`
(`ROBERTSON_ISOTEMPERATURE_LINES_RUVT` in the source). -/
structure RUVT where
  r : ℚ
  u : ℚ
  v : ℚ
  t : ℚ
  deriving DecidableEq, Repr

/-- The 31 Robertson iso-temperature lines
(`ROBERTSON_ISOTEMPERATURE_LINES_DATA` in the source, including the Bruce
Lindbloom correction `0.24702 → 0.24792` at 325 reciprocal megakelvin). -/
def ROBERTSON_ISOTEMPERATURE_LINES : List RUVT := [
  ⟨0, 0.18006, 0.26352, -0.24341⟩,
  ⟨10, 0.18066, 0.26589, -0.25479⟩,
  ⟨20, 0.18133, 0.26846, -0.26876⟩,
  ⟨30, 0.18208, 0.27119, -0.28539⟩,
  ⟨40, 0.18293, 0.27407, -0.30470⟩,
  ⟨50, 0.18388, 0.27709, -0.32675⟩,
  ⟨60, 0.18494, 0.28021, -0.35156⟩,
  ⟨70, 0.18611, 0.28342, -0.37915⟩,
  ⟨80, 0.18740, 0.28668, -0.40955⟩,
  ⟨90, 0.18880, 0.28997, -0.44278⟩,
  ⟨100, 0.19032, 0.29326, -0.47888⟩,
  ⟨125, 0.19462, 0.30141, -0.58204⟩,
  ⟨150, 0.19962, 0.30921, -0.70471⟩,
  ⟨175, 0.20525, 0.31647, -0.84901⟩,
  ⟨200, 0.21142, 0.32312, -1.0182⟩,
  ⟨225, 0.21807, 0.32909, -1.2168⟩,
  ⟨250, 0.22511, 0.33439, -1.4512⟩,
  ⟨275, 0.23247, 0.33904, -1.7298⟩,
  ⟨300, 0.24010, 0.34308, -2.0637⟩,
  ⟨325, 0.24792, 0.34655, -2.4681⟩,
  ⟨350, 0.25591, 0.34951, -2.9641⟩,
  ⟨375, 0.26400, 0.35200, -3.5814⟩,
  ⟨400, 0.27218, 0.35407, -4.3633⟩,
  ⟨425, 0.28039, 0.35577, -5.3762⟩,
  ⟨450, 0.28863, 0.35714, -6.7262⟩,
  ⟨475, 0.29685, 0.35823, -8.5955⟩,
  ⟨500, 0.30505, 0.35907, -11.324⟩,
  ⟨525, 0.31320, 0.35968, -15.628⟩,
  ⟨550, 0.32129, 0.36011, -23.325⟩,
  ⟨575, 0.32931, 0.36038, -40.770⟩,
  ⟨600, 0.33724, 0.36051, -116.45⟩]

/-- `ROBERTSON_ISOTEMPERATURE_LINES[i]` (list indexing in the source; all
indices used by the algorithms are in range). -/
def robLine (i : ℕ) : RUVT := ROBERTSON_ISOTEMPERATURE_LINES.getD i ⟨0, 0, 0, 0⟩

/-! ### Robertson (1968) forward solver, `uv_to_CCT_robertson1968`

The loop body of `uv_to_CCT_robertson1968` computes, at iteration `i`,
`du = 1/len`, `dv = t_i/len` with `len = sqrt(1 + t_i²)`, the offsets
`uu = u - u_i`, `vv = v - v_i`, and the projection `dt = -uu*dv + vv*du`.
It breaks at the first `i` with `dt <= 0`, or at `i == 30`. -/

/-- `du` of iteration `i` of `uv_to_CCT_robertson1968` (`s` is the
square-root oracle standing for `math.sqrt`). -/
def robDu (s : ℚ → ℚ) (i : ℕ) : ℚ :=
  1 / s (1 + (robLine i).t * (robLine i).t)

/-- `dv` of iteration `i` of `uv_to_CCT_robertson1968`. -/
def robDv (s : ℚ → ℚ) (i : ℕ) : ℚ :=
  (robLine i).t / s (1 + (robLine i).t * (robLine i).t)

/-- `dt` of iteration `i` of `uv_to_CCT_robertson1968`:
`-uu * dv + vv * du`. -/
def robDt (s : ℚ → ℚ) (u v : ℚ) (i : ℕ) : ℚ :=
  -(u - (robLine i).u) * robDv s i + (v - (robLine i).v) * robDu s i

/-- The values computed by the break block of `uv_to_CCT_robertson1968`:
break iteration `i`, the incoming `last_dt`, the clamped-and-negated `dt`,
the interpolation fraction `f`, the blended reciprocal temperature
(denominator of `T`), `T` itself and the internal `Duv` projection. -/
structure RobBreak where
  i : ℕ
  last_dt : ℚ
  dt : ℚ
  f : ℚ
  rBlend : ℚ
  T : ℚ
  Duv : ℚ
  deriving DecidableEq, Repr

/-- The break block of `uv_to_CCT_robertson1968` (the body of
`if dt <= 0. or i == 30:`), entered at iteration `i` with loop state
`last_dt`, `last_du`, `last_dv`. -/
def robBreakAt (s : ℚ → ℚ) (u v : ℚ) (i : ℕ)
    (last_dt last_du last_dv : ℚ) : RobBreak :=
  let wr := robLine i
  let wrp := robLine (i - 1)
  let dt0 := robDt s u v i
  -- `if dt > 0.0: dt = 0.0` followed by `dt = -dt`
  let dt1 := if 0 < dt0 then 0 else dt0
  let dt := -dt1
  let f := if i = 1 then 0 else dt / (last_dt + dt)
  let rB := wrp.r * f + wr.r * (1 - f)
  let T := 1000000 / rB
  let uu := u - (wrp.u * f + wr.u * (1 - f))
  let vv := v - (wrp.v * f + wr.v * (1 - f))
  let du := robDu s i * (1 - f) + last_du * f
  let dv := robDv s i * (1 - f) + last_dv * f
  let len := s (du * du + dv * dv)
  let du2 := du / len
  let dv2 := dv / len
  ⟨i, last_dt, dt, f, rB, T, uu * du2 + vv * dv2⟩

/-- The `for i in range(1, 31)` loop of `uv_to_CCT_robertson1968`, over the
list of remaining indices (`rest = []` encodes `i == 30`).  Reaching the end
of the loop without a break would leave `T`/`Duv` undefined (a Python
`NameError` at `return`), embedded as `none`; the loop in fact always
breaks. -/
def robLoop (s : ℚ → ℚ) (u v : ℚ) :
    List ℕ → ℚ → ℚ → ℚ → Option RobBreak
  | [], _, _, _ => none
  | i :: rest, last_dt, last_du, last_dv =>
    if robDt s u v i ≤ 0 ∨ rest = [] then
      some (robBreakAt s u v i last_dt last_du last_dv)
    else
      robLoop s u v rest (robDt s u v i) (robDu s i) (robDv s i)

/-- `uv_to_CCT_robertson1968`: run the table walk from index 1 with
`last_dt = last_du = last_dv = 0.0` and return `(T, -Duv)`. -/
def uv_to_CCT_robertson1968 (s : ℚ → ℚ) (u v : ℚ) : Option (ℚ × ℚ) :=
  (robLoop s u v (List.range' 1 30) 0 0 0).map (fun b => (b.T, -b.Duv))

/-! ### Planckian table (Ohno 2013) -/

/-- One planckian table row `(Ti, ui, vi, di)`
(the `PLANCKIAN_TABLE_TUVD` namedtuple in the source): sampled temperature,
its locus uv coordinates and the euclidean uv-distance to the target. -/
structure PLANCKIAN_TABLE_TUVD where
  Ti : ℚ
  ui : ℚ
  vi : ℚ
  di : ℚ
  deriving DecidableEq, Repr

/-- Python's `min` over a list, as used by
`get_planckian_table_minimal_distance_index`: the running minimum is only
replaced when a strictly smaller element appears, so ties keep the earliest
element.  `min([])` raises `ValueError`, embedded as `none`. -/
def pyMin : List ℚ → Option ℚ
  | [] => none
  | x :: xs => some (xs.foldl (fun m y => if y < m then y else m) x)

/-- Python's `list.index`: the index of the first occurrence of `q`.
When `q` is absent Python raises `ValueError`; this embedding then returns
`l.length` (an out-of-range index), a case never reached by the module
because it only looks up `min(distances)`, which is a member. -/
def pyIndex (q : ℚ) : List ℚ → ℕ
  | [] => 0
  | x :: xs => if x = q then 0 else pyIndex q xs + 1

/-- `get_planckian_table_minimal_distance_index`:
`distances.index(min(distances))`. -/
def get_planckian_table_minimal_distance_index
    (planckian_table : List PLANCKIAN_TABLE_TUVD) : ℕ :=
  let distances := planckian_table.map (·.di)
  match pyMin distances with
  | some m => pyIndex m distances
  | none => 0

/-- The boundary nudge of `uv_to_CCT_ohno2013`: `if index == 0: warn;
index += 1 / elif index == len(planckian_table) - 1: warn; index -= 1`.
The boolean records whether a warning was emitted. -/
def adjustIndex (index length : ℕ) : ℕ × Bool :=
  if index = 0 then (index + 1, true)
  else if index = length - 1 then (index - 1, true)
  else (index, false)

/-! ### Ohno (2013) final triangular / parabolic stage

`uv_to_CCT_ohno2013` ends by reading the triple
`planckian_table[index-1], planckian_table[index], planckian_table[index+1]`
and computing first a triangular and then, conditionally, a parabolic
solution.  The triple and the target `vx` are the only inputs of that stage
(`ux` is unpacked by the source but never used), so it is embedded as a
function of them.  Field names follow the source's unpacked variables. -/

/-- The final three planckian rows of `uv_to_CCT_ohno2013`:
`(Tip, uip, vip, dip)`, `(Ti, ui, vi, di)`, `(Tin, uin, vin, din)`. -/
structure OhnoTriple where
  Tip : ℚ
  uip : ℚ
  vip : ℚ
  dip : ℚ
  Ti : ℚ
  ui : ℚ
  vi : ℚ
  di : ℚ
  Tin : ℚ
  uin : ℚ
  vin : ℚ
  din : ℚ
  deriving DecidableEq, Repr

/-- `l = sqrt((uin - uip)**2 + (vin - vip)**2)` of the triangular
solution. -/
def ohnoL (s : ℚ → ℚ) (e : OhnoTriple) : ℚ :=
  s ((e.uin - e.uip) ^ 2 + (e.vin - e.vip) ^ 2)

/-- `x = (dip**2 - din**2 + l**2) / (2 * l)` of the triangular solution. -/
def ohnoX (s : ℚ → ℚ) (e : OhnoTriple) : ℚ :=
  (e.dip ^ 2 - e.din ^ 2 + ohnoL s e ^ 2) / (2 * ohnoL s e)

/-- `T = Tip + (Tin - Tip) * (x / l)`, the triangular temperature. -/
def ohnoTriT (s : ℚ → ℚ) (e : OhnoTriple) : ℚ :=
  e.Tip + (e.Tin - e.Tip) * (ohnoX s e / ohnoL s e)

/-- `vtx = vip + (vin - vip) * (x / l)`. -/
def ohnoVtx (s : ℚ → ℚ) (e : OhnoTriple) : ℚ :=
  e.vip + (e.vin - e.vip) * (ohnoX s e / ohnoL s e)

/-- `sign = 1. if vx - vtx >= 0. else -1.` -/
def ohnoSign (s : ℚ → ℚ) (e : OhnoTriple) (vx : ℚ) : ℚ :=
  if 0 ≤ vx - ohnoVtx s e then 1 else -1

/-- `Duv = (dip ** 2 - x ** 2) ** (1. / 2.) * sign`, the triangular
(signed) distance from the locus. -/
def ohnoTriDuv (s : ℚ → ℚ) (e : OhnoTriple) (vx : ℚ) : ℚ :=
  s (e.dip ^ 2 - ohnoX s e ^ 2) * ohnoSign s e vx

/-- The triangular solution `(T, Duv)` of `uv_to_CCT_ohno2013`. -/
def ohnoTriangular (s : ℚ → ℚ) (e : OhnoTriple) (vx : ℚ) : ℚ × ℚ :=
  (ohnoTriT s e, ohnoTriDuv s e vx)

/-- The parabolic solution of `uv_to_CCT_ohno2013`: the quadratic
`a*T**2 + b*T + c` through the three `(Ti, di)` points, its vertex
`T = -b / (2a)` and `Duv = sign * (a*T**2 + b*T + c)` (reusing the
triangular `sign`). -/
def ohnoParabolic (s : ℚ → ℚ) (e : OhnoTriple) (vx : ℚ) : ℚ × ℚ :=
  let X := (e.Tin - e.Ti) * (e.Tip - e.Tin) * (e.Ti - e.Tip)
  let a := (e.Tip * (e.din - e.di) + e.Ti * (e.dip - e.din) +
    e.Tin * (e.di - e.dip)) * X⁻¹
  let b := -(e.Tip ^ 2 * (e.din - e.di) + e.Ti ^ 2 * (e.dip - e.din) +
    e.Tin ^ 2 * (e.di - e.dip)) * X⁻¹
  let c := -(e.dip * (e.Tin - e.Ti) * e.Ti * e.Tin +
    e.di * (e.Tip - e.Tin) * e.Tip * e.Tin +
    e.din * (e.Ti - e.Tip) * e.Tip * e.Ti) * X⁻¹
  let T := -b / (2 * a)
  (T, ohnoSign s e vx * (a * T ^ 2 + b * T + c))

/-- The value returned by `uv_to_CCT_ohno2013` from its final triple: the
triangular solution, replaced by the parabolic one when the *signed*
triangular `Duv` satisfies `Duv < 0.002` (the source tests `Duv < 0.002`
on the signed value, not `abs(Duv)`). -/
def ohnoSolution (s : ℚ → ℚ) (e : OhnoTriple) (vx : ℚ) : ℚ × ℚ :=
  if ohnoTriDuv s e vx < 0.002 then ohnoParabolic s e vx
  else ohnoTriangular s e vx

/-! ### Kang (2002) `CCT_to_xy` -/

/-- First branch of the `x` piecewise cubic of `CCT_to_xy_kang2002`
(`1667 <= CCT <= 4000`). -/
def kangX1 (CCT : ℚ) : ℚ :=
  -0.2661239 * 10 ^ 9 / CCT ^ 3 - 0.2343589 * 10 ^ 6 / CCT ^ 2 +
    0.8776956 * 10 ^ 3 / CCT + 0.179910

/-- Second branch of the `x` piecewise cubic of `CCT_to_xy_kang2002`
(`4000 <= CCT <= 25000`). -/
def kangX2 (CCT : ℚ) : ℚ :=
  -3.0258469 * 10 ^ 9 / CCT ^ 3 + 2.1070379 * 10 ^ 6 / CCT ^ 2 +
    0.2226347 * 10 ^ 3 / CCT + 0.24039

/-- First `y` cubic of `CCT_to_xy_kang2002` (branch `1667 <= CCT <= 2222`). -/
def kangY1 (x : ℚ) : ℚ :=
  -1.1063814 * x ^ 3 - 1.34811020 * x ^ 2 + 2.18555832 * x - 0.20219683

/-- Second `y` cubic of `CCT_to_xy_kang2002` (branch `2222 <= CCT <= 4000`). -/
def kangY2 (x : ℚ) : ℚ :=
  -0.9549476 * x ^ 3 - 1.37418593 * x ^ 2 + 2.09137015 * x - 0.16748867

/-- Third `y` cubic of `CCT_to_xy_kang2002` (branch `4000 <= CCT <= 25000`). -/
def kangY3 (x : ℚ) : ℚ :=
  3.0817580 * x ^ 3 - 5.8733867 * x ^ 2 + 3.75112997 * x - 0.37001483

/-- The `y` selection of `CCT_to_xy_kang2002`: the source's
`if 1667 <= CCT <= 2222 / elif 2222 <= CCT <= 4000 / elif 4000 <= CCT <= 25000`
chain has no `else`, so a `CCT` matching no branch leaves `y` undefined
(a Python `NameError` at `return`), embedded as `none`. -/
def kangYSelect (CCT x : ℚ) : Option ℚ :=
  if 1667 ≤ CCT ∧ CCT ≤ 2222 then some (kangY1 x)
  else if 2222 ≤ CCT ∧ CCT ≤ 4000 then some (kangY2 x)
  else if 4000 ≤ CCT ∧ CCT ≤ 25000 then some (kangY3 x)
  else none

/-- `CCT_to_xy_kang2002`. The `else: raise ValueError(... domain
[1667, 25000] ...)` branch of the `x` computation is embedded as `none`. -/
def CCT_to_xy_kang2002 (CCT : ℚ) : Option (ℚ × ℚ) :=
  if 1667 ≤ CCT ∧ CCT ≤ 4000 then
    (kangYSelect CCT (kangX1 CCT)).map (fun y => (kangX1 CCT, y))
  else if 4000 ≤ CCT ∧ CCT ≤ 25000 then
    (kangYSelect CCT (kangX2 CCT)).map (fun y => (kangX2 CCT, y))
  else none

/-! ### McCamy (1992) `xy_to_CCT` -/

/-- `xy_to_CCT_mccamy1992`. The source computes
`n = (x - 0.3320) / (y - 0.1858)` with Python float division, which raises
`ZeroDivisionError` when the denominator is exactly zero; that failing path
is embedded as `none`. -/
def xy_to_CCT_mccamy1992 (x y : ℚ) : Option ℚ :=
  if y - 0.1858 = 0 then none
  else
    let n := (x - 0.3320) / (y - 0.1858)
    some (-449 * n ^ 3 + 3525 * n ^ 2 - 6823.3 * n + 5520.33)

/-! ### Method dispatch

The four dispatch functions are embedded as control-flow models: they
return which registered implementation the call reaches (the numeric
implementations themselves are embedded separately above), or the Python
failure the dispatch raises before reaching one. -/

/-- The implementations registered in `UV_TO_CCT_METHODS` and
`CCT_TO_UV_METHODS`. -/
inductive UvMethodImpl
  | ohno2013
  | robertson1968
  deriving DecidableEq, Repr

/-- The implementations registered in `XY_TO_CCT_METHODS`. -/
inductive XyMethodImpl
  | mccamy1992
  | hernandez1999
  deriving DecidableEq, Repr

/-- The implementations registered in `CCT_TO_XY_METHODS`. -/
inductive CctXyMethodImpl
  | kang2002
  | illuminantD
  deriving DecidableEq, Repr

/-- Failures raised by the dispatch functions before any numeric work:
`missingMethod` is the `TypeError` raised by calling the `None` that
`dict.get` returns for a name absent from the registry (the
missing-method condition); `invalidObserver` is the `ValueError` raised by
the Robertson branch for a non-2°-observer `cmfs` keyword. -/
inductive PyDispatchError
  | missingMethod
  | invalidObserver
  deriving DecidableEq, Repr

/-- `UV_TO_CCT_METHODS`. -/
def UV_TO_CCT_METHODS : List (String × UvMethodImpl) :=
  [("Ohno 2013", .ohno2013), ("Robertson 1968", .robertson1968)]

/-- `CCT_TO_UV_METHODS`. -/
def CCT_TO_UV_METHODS : List (String × UvMethodImpl) :=
  [("Ohno 2013", .ohno2013), ("Robertson 1968", .robertson1968)]

/-- `XY_TO_CCT_METHODS`. -/
def XY_TO_CCT_METHODS : List (String × XyMethodImpl) :=
  [("McCamy 1992", .mccamy1992), ("Hernandez 1999", .hernandez1999)]

/-- `CCT_TO_XY_METHODS`. -/
def CCT_TO_XY_METHODS : List (String × CctXyMethodImpl) :=
  [("Kang 2002", .kang2002), ("CIE Illuminant D Series", .illuminantD)]

/-- `REGISTRY.get(method)(args)`: `dict.get` yields the callable, or `None`
for an unknown name, in which case the call raises `TypeError`
(`'NoneType' object is not callable`) — the missing-method failure. -/
def callRegistry {α : Type} (registry : List (String × α)) (method : String) :
    Except PyDispatchError α :=
  match registry.lookup method with
  | some impl => Except.ok impl
  | none => Except.error PyDispatchError.missingMethod

/-- `uv_to_CCT(uv, method, **kwargs)` as a control-flow model.  `cmfs` is
the name of the observer passed through the `cmfs` keyword, when present.
Any method other than `"Ohno 2013"` goes through the Robertson branch,
which first validates a supplied `cmfs` keyword and only then looks the
method up. -/
def uv_to_CCT (method : String) (cmfs : Option String) :
    Except PyDispatchError UvMethodImpl :=
  if method = "Ohno 2013" then callRegistry UV_TO_CCT_METHODS method
  else
    match cmfs with
    | some nm =>
      if nm ≠ "CIE 1931 2 Degree Standard Observer" then
        Except.error PyDispatchError.invalidObserver
      else callRegistry UV_TO_CCT_METHODS method
    | none => callRegistry UV_TO_CCT_METHODS method

/-- `CCT_to_uv(CCT, Duv, method, **kwargs)` as a control-flow model; the
dispatch logic is identical to `uv_to_CCT` but reads `CCT_TO_UV_METHODS`. -/
def CCT_to_uv (method : String) (cmfs : Option String) :
    Except PyDispatchError UvMethodImpl :=
  if method = "Ohno 2013" then callRegistry CCT_TO_UV_METHODS method
  else
    match cmfs with
    | some nm =>
      if nm ≠ "CIE 1931 2 Degree Standard Observer" then
        Except.error PyDispatchError.invalidObserver
      else callRegistry CCT_TO_UV_METHODS method
    | none => callRegistry CCT_TO_UV_METHODS method

/-- `xy_to_CCT(xy, method)` as a control-flow model: a bare registry
call. -/
def xy_to_CCT (method : String) : Except PyDispatchError XyMethodImpl :=
  callRegistry XY_TO_CCT_METHODS method

/-- `CCT_to_xy(CCT, method)` as a control-flow model: a bare registry
call. -/
def CCT_to_xy (method : String) : Except PyDispatchError CctXyMethodImpl :=
  callRegistry CCT_TO_XY_METHODS method

/-! ### Concrete inputs used by witnesses and counterexamples -/

/-- A three-row table whose minimal distance (`1`) first occurs at
index 1 (with a tie at index 2). -/
def c6table : List PLANCKIAN_TABLE_TUVD :=
  [⟨1000, 0, 0, 3⟩, ⟨1005, 0, 0, 1⟩, ⟨1010, 0, 0, 1⟩]

/-- A two-row table whose minimal distance is at index 0: the boundary
nudge moves the index to 1, and `index + 1 = 2` is then out of range. -/
def c5table : List PLANCKIAN_TABLE_TUVD :=
  [⟨1000, 0, 0, 1⟩, ⟨1010, 0, 0, 2⟩]

/-- A final Ohno triple with rational geometry: the chord length is
`l = 7/2000` (a 3-4-5 style triple) and `dip² - x² = (3/1000)²`, so the
triangular solution is exactly computable; with target `vx = 0` the sign is
`-1` and the triangular `Duv` is exactly `-3/1000`. -/
def tripleC2 : OhnoTriple :=
  ⟨1000, 0, 0, 13/4000,
   2000, 0, 0, 1/1000,
   3000, 21/10000, 7/2500, 3/800⟩

/-- A square-root oracle that is exact on the two values `ohnoSolution`
probes for `tripleC2`:
`(21/10000)² + (7/2500)² = 49/4000000 = (7/2000)²` and
`dip² - x² = 9/1000000 = (3/1000)²`. -/
def sqrtC2 : ℚ → ℚ := fun q =>
  if q = 49/4000000 then 7/2000
  else if q = 9/1000000 then 3/1000
  else 0

end CCT

namespace CCT

/-! ### Helper lemmas: Python `min` and `list.index` -/

lemma pyMinFold_le_init (xs : List ℚ) :
    ∀ a : ℚ, xs.foldl (fun m y => if y < m then y else m) a ≤ a := by
  induction xs with
  | nil => intro a; simp
  | cons x xs ih =>
    intro a
    simp only [List.foldl_cons]
    refine le_trans (ih _) ?_
    split <;> [exact le_of_lt (by assumption); exact le_rfl]

lemma pyMinFold_le_mem (xs : List ℚ) :
    ∀ a : ℚ, ∀ x ∈ xs, xs.foldl (fun m y => if y < m then y else m) a ≤ x := by
  induction xs with
  | nil => intro a x hx; cases hx
  | cons y ys ih =>
    intro a x hx
    simp only [List.foldl_cons]
    rcases List.mem_cons.mp hx with rfl | hx
    · refine le_trans (pyMinFold_le_init ys _) ?_
      split <;> [exact le_rfl; exact le_of_not_lt (by assumption)]
    · exact ih _ x hx

lemma pyMinFold_mem (xs : List ℚ) :
    ∀ a : ℚ, xs.foldl (fun m y => if y < m then y else m) a = a ∨
      xs.foldl (fun m y => if y < m then y else m) a ∈ xs := by
  induction xs with
  | nil => intro a; left; rfl
  | cons y ys ih =>
    intro a
    simp only [List.foldl_cons]
    by_cases h : y < a
    · rw [if_pos h]
      rcases ih y with h' | h'
      · right; exact List.mem_cons.mpr (Or.inl h')
      · right; exact List.mem_cons.mpr (Or.inr h')
    · rw [if_neg h]
      rcases ih a with h' | h'
      · left; exact h'
      · right; exact List.mem_cons.mpr (Or.inr h')

lemma pyMin_le (l : List ℚ) (m : ℚ) (hm : pyMin l = some m) :
    ∀ x ∈ l, m ≤ x := by
  cases l with
  | nil => cases hm
  | cons x xs =>
    simp only [pyMin, Option.some.injEq] at hm
    subst hm
    intro y hy
    rcases List.mem_cons.mp hy with rfl | hy
    · exact pyMinFold_le_init xs y
    · exact pyMinFold_le_mem xs x y hy

lemma pyMin_mem (l : List ℚ) (m : ℚ) (hm : pyMin l = some m) : m ∈ l := by
  cases l with
  | nil => cases hm
  | cons x xs =>
    simp only [pyMin, Option.some.injEq] at hm
    subst hm
    rcases pyMinFold_mem xs x with h | h
    · rw [h]; exact List.mem_cons_self _ _
    · exact List.mem_cons.mpr (Or.inr h)

lemma pyIndex_lt_length (q : ℚ) (l : List ℚ) (h : q ∈ l) :
    pyIndex q l < l.length := by
  induction l with
  | nil => cases h
  | cons x xs ih =>
    simp only [pyIndex]
    by_cases hx : x = q
    · rw [if_pos hx]; simp
    · rw [if_neg hx]
      have : q ∈ xs := by
        rcases List.mem_cons.mp h with rfl | h'
        · exact absurd rfl hx
        · exact h'
      simpa [Nat.succ_lt_succ_iff] using ih this

lemma pyIndex_getD (q : ℚ) (l : List ℚ) (h : q ∈ l) :
    l.getD (pyIndex q l) 0 = q := by
  induction l with
  | nil => cases h
  | cons x xs ih =>
    simp only [pyIndex]
    by_cases hx : x = q
    · rw [if_pos hx]; simpa using hx
    · rw [if_neg hx]
      have : q ∈ xs := by
        rcases List.mem_cons.mp h with rfl | h'
        · exact absurd rfl hx
        · exact h'
      simpa using ih this

lemma pyIndex_first (q : ℚ) (l : List ℚ) :
    ∀ j, j < pyIndex q l → l.getD j 0 ≠ q := by
  induction l with
  | nil => intro j hj; simp [pyIndex] at hj
  | cons x xs ih =>
    intro j hj
    simp only [pyIndex] at hj
    by_cases hx : x = q
    · rw [if_pos hx] at hj; cases hj
    · rw [if_neg hx] at hj
      cases j with
      | zero => simpa using hx
      | succ j =>
        have := ih j (Nat.lt_of_succ_lt_succ hj)
        simpa using this

lemma getD_map_di (t : List PLANCKIAN_TABLE_TUVD) (j : ℕ) (hj : j < t.length) :
    (t.map (·.di)).getD j 0 = (t.getD j ⟨0, 0, 0, 0⟩).di := by
  rw [List.getD_eq_getElem _ _ (by simpa using hj), List.getD_eq_getElem _ _ hj]
  simp

lemma getD_mem_of_lt (l : List ℚ) (j : ℕ) (hj : j < l.length) :
    l.getD j 0 ∈ l := by
  rw [List.getD_eq_getElem _ _ hj]
  exact List.getElem_mem hj

/-- Shared helper: the full specification of
`get_planckian_table_minimal_distance_index` on non-empty tables. -/
lemma minimal_distance_index_bounds
    (t : List PLANCKIAN_TABLE_TUVD) (h : t ≠ []) :
    get_planckian_table_minimal_distance_index t < t.length ∧
    (∀ j, j < t.length →
      (t.getD (get_planckian_table_minimal_distance_index t) ⟨0, 0, 0, 0⟩).di ≤
        (t.getD j ⟨0, 0, 0, 0⟩).di) ∧
    (∀ j, j < get_planckian_table_minimal_distance_index t →
      (t.getD (get_planckian_table_minimal_distance_index t) ⟨0, 0, 0, 0⟩).di <
        (t.getD j ⟨0, 0, 0, 0⟩).di) := by
  obtain ⟨a, t', rfl⟩ := List.exists_cons_of_ne_nil h
  obtain ⟨m, hm⟩ : ∃ m, pyMin ((a :: t').map (·.di)) = some m := ⟨_, rfl⟩
  have hidx : get_planckian_table_minimal_distance_index (a :: t') =
      pyIndex m ((a :: t').map (·.di)) := by
    simp only [get_planckian_table_minimal_distance_index, hm]
  set ds := (a :: t').map (·.di) with hds
  have hmem : m ∈ ds := pyMin_mem ds m hm
  have hlen : pyIndex m ds < ds.length := pyIndex_lt_length m ds hmem
  have hlen' : pyIndex m ds < (a :: t').length := by
    simpa [hds] using hlen
  have hget : ds.getD (pyIndex m ds) 0 = m := pyIndex_getD m ds hmem
  have hdi : (((a :: t').getD (pyIndex m ds) ⟨0, 0, 0, 0⟩)).di = m := by
    rw [← getD_map_di _ _ hlen']
    exact hget
  refine ⟨by rw [hidx]; exact hlen', ?_, ?_⟩
  · intro j hj
    rw [hidx, hdi, ← getD_map_di _ _ hj]
    exact pyMin_le ds m hm _ (getD_mem_of_lt ds j (by simpa [hds] using hj))
  · intro j hj
    rw [hidx] at hj ⊢
    have hjlen : j < (a :: t').length := lt_trans hj hlen'
    have hne : ds.getD j 0 ≠ m := pyIndex_first m ds j hj
    have hle : m ≤ ds.getD j 0 :=
      pyMin_le ds m hm _ (getD_mem_of_lt ds j (by simpa [hds] using hjlen))
    rw [hdi, ← getD_map_di _ _ hjlen]
    exact lt_of_le_of_ne hle (Ne.symm hne)

/-- **C6**: for every non-empty planckian table,
`get_planckian_table_minimal_distance_index` returns an in-range index `i`
with `table[i].di <= table[j].di` for every `j`, and `table[j].di >
table[i].di` for every `j < i` (ties are broken by first occurrence). -/
theorem get_planckian_table_minimal_distance_index_spec
    (t : List PLANCKIAN_TABLE_TUVD) (h : t ≠ []) :
    get_planckian_table_minimal_distance_index t < t.length ∧
    (∀ j, j < t.length →
      (t.getD (get_planckian_table_minimal_distance_index t) ⟨0, 0, 0, 0⟩).di ≤
        (t.getD j ⟨0, 0, 0, 0⟩).di) ∧
    (∀ j, j < get_planckian_table_minimal_distance_index t →
      (t.getD (get_planckian_table_minimal_distance_index t) ⟨0, 0, 0, 0⟩).di <
        (t.getD j ⟨0, 0, 0, 0⟩).di) :=
  minimal_distance_index_bounds t h

/-- Witness for C6 at a concrete three-row table: the minimal distance `1`
first occurs at index 1 (index 2 holds the tying distance). -/
theorem get_planckian_table_minimal_distance_index_spec_witness :
    (get_planckian_table_minimal_distance_index c6table < c6table.length ∧
      (∀ j, j < c6table.length →
        (c6table.getD (get_planckian_table_minimal_distance_index c6table)
            ⟨0, 0, 0, 0⟩).di ≤ (c6table.getD j ⟨0, 0, 0, 0⟩).di) ∧
      (∀ j, j < get_planckian_table_minimal_distance_index c6table →
        (c6table.getD (get_planckian_table_minimal_distance_index c6table)
            ⟨0, 0, 0, 0⟩).di < (c6table.getD j ⟨0, 0, 0, 0⟩).di)) ∧
    get_planckian_table_minimal_distance_index c6table = 1 :=
  ⟨get_planckian_table_minimal_distance_index_spec c6table (by decide),
    by decide⟩

/-- **C5 (amended)**: in `uv_to_CCT_ohno2013`, for every planckian table
with at least 3 rows, when the minimal-distance index is the first
(respectively last) entry the solver warns and shifts the index inward by
one, and after the adjustment the indices `index - 1` and `index + 1` are
valid in-range positions, so each iteration and the final triangular fit
read three distinct existing entries.  (The claim's `count ≥ 2` bound is
too weak: with exactly 2 rows the adjusted accesses leave the table.) -/
theorem ohno_boundary_nudge (t : List PLANCKIAN_TABLE_TUVD)
    (h3 : 3 ≤ t.length) :
    (get_planckian_table_minimal_distance_index t = 0 →
      adjustIndex (get_planckian_table_minimal_distance_index t) t.length =
        (1, true)) ∧
    (get_planckian_table_minimal_distance_index t = t.length - 1 →
      adjustIndex (get_planckian_table_minimal_distance_index t) t.length =
        (t.length - 2, true)) ∧
    (get_planckian_table_minimal_distance_index t ≠ 0 →
      get_planckian_table_minimal_distance_index t ≠ t.length - 1 →
      adjustIndex (get_planckian_table_minimal_distance_index t) t.length =
        (get_planckian_table_minimal_distance_index t, false)) ∧
    1 ≤ (adjustIndex (get_planckian_table_minimal_distance_index t)
          t.length).1 ∧
    (adjustIndex (get_planckian_table_minimal_distance_index t) t.length).1
      + 1 < t.length := by
  have hne : t ≠ [] := by
    intro h
    rw [h] at h3
    simp at h3
  have hlt : get_planckian_table_minimal_distance_index t < t.length :=
    (minimal_distance_index_bounds t hne).1
  set i := get_planckian_table_minimal_distance_index t with hi
  by_cases h0 : i = 0
  · have hadj : adjustIndex i t.length = (1, true) := by
      simp [adjustIndex, h0]
    have h1 : (adjustIndex i t.length).1 = 1 := by rw [hadj]
    refine ⟨fun _ => hadj, fun hlast => by exfalso; omega,
      fun hne0 _ => absurd h0 hne0, by rw [h1], by rw [h1]; omega⟩
  · by_cases hlast : i = t.length - 1
    · have hadj : adjustIndex i t.length = (i - 1, true) := by
        unfold adjustIndex
        rw [if_neg h0, if_pos hlast]
      have h1 : (adjustIndex i t.length).1 = i - 1 := by rw [hadj]
      refine ⟨fun h' => absurd h' h0, fun _ => ?_,
        fun _ hne' => absurd hlast hne', by rw [h1]; omega, by rw [h1]; omega⟩
      rw [hadj, hlast]
      have he : t.length - 1 - 1 = t.length - 2 := by omega
      rw [he]
    · have hadj : adjustIndex i t.length = (i, false) := by
        simp [adjustIndex, h0, hlast]
      have h1 : (adjustIndex i t.length).1 = i := by rw [hadj]
      refine ⟨fun h' => absurd h' h0, fun h' => absurd h' hlast,
        fun _ _ => hadj, by rw [h1]; omega, by rw [h1]; omega⟩

/-- Witness for C5 at the concrete three-row table `c6table` (minimal
index 1, interior, so no warning and the triple `0, 1, 2` is read). -/
theorem ohno_boundary_nudge_witness :
    (get_planckian_table_minimal_distance_index c6table = 0 →
      adjustIndex (get_planckian_table_minimal_distance_index c6table)
        c6table.length = (1, true)) ∧
    (get_planckian_table_minimal_distance_index c6table = c6table.length - 1 →
      adjustIndex (get_planckian_table_minimal_distance_index c6table)
        c6table.length = (c6table.length - 2, true)) ∧
    (get_planckian_table_minimal_distance_index c6table ≠ 0 →
      get_planckian_table_minimal_distance_index c6table ≠ c6table.length - 1 →
      adjustIndex (get_planckian_table_minimal_distance_index c6table)
        c6table.length =
        (get_planckian_table_minimal_distance_index c6table, false)) ∧
    1 ≤ (adjustIndex (get_planckian_table_minimal_distance_index c6table)
          c6table.length).1 ∧
    (adjustIndex (get_planckian_table_minimal_distance_index c6table)
        c6table.length).1 + 1 < c6table.length :=
  ohno_boundary_nudge c6table (by decide)

/-- Counterexample to **C5 as stated**: `c5table` has `count = 2 ≥ 2` rows
and its minimal-distance index is 0 (the first entry); the boundary policy
shifts it to 1, after which `index + 1 = 2` is *not* a valid position of
the 2-row table (the source would raise `IndexError` on
`planckian_table[index + 1]`). -/
theorem ohno_boundary_nudge_counterexample :
    2 ≤ c5table.length ∧
    get_planckian_table_minimal_distance_index c5table = 0 ∧
    adjustIndex (get_planckian_table_minimal_distance_index c5table)
      c5table.length = (1, true) ∧
    ¬ ((adjustIndex (get_planckian_table_minimal_distance_index c5table)
        c5table.length).1 + 1 < c5table.length) := by
  decide

/-! ### Kang (2002) -/

lemma isSome_map_opt {α β : Type} (f : α → β) (o : Option α) :
    (o.map f).isSome = o.isSome := by
  cases o <;> rfl

lemma kangYSelect_isSome (CCT x : ℚ) (h1 : 1667 ≤ CCT) (h2 : CCT ≤ 25000) :
    (kangYSelect CCT x).isSome = true := by
  unfold kangYSelect
  split_ifs with ha hb hc
  · rfl
  · rfl
  · rfl
  · exfalso
    push_neg at ha hb hc
    have g1 : 2222 < CCT := ha h1
    have g2 : 4000 < CCT := hb (le_of_lt g1)
    have g3 : 25000 < CCT := hc (le_of_lt g2)
    linarith

/-- **C3**: `CCT_to_xy_kang2002` fails with a domain error (no partial
result) exactly outside `[1667, 25000]` — in particular at `CCT = 500` and
`CCT = 30000` — and returns an `(x, y)` pair for every `CCT` inside. -/
theorem CCT_to_xy_kang2002_domain :
    (∀ CCT : ℚ, (CCT_to_xy_kang2002 CCT).isSome = true ↔
      (1667 ≤ CCT ∧ CCT ≤ 25000)) ∧
    CCT_to_xy_kang2002 500 = none ∧
    CCT_to_xy_kang2002 30000 = none := by
  refine ⟨fun CCT => ?_, by norm_num [CCT_to_xy_kang2002],
    by norm_num [CCT_to_xy_kang2002]⟩
  unfold CCT_to_xy_kang2002
  split_ifs with ha hb
  · rw [isSome_map_opt]
    exact ⟨fun _ => ⟨ha.1, by linarith [ha.2]⟩,
      fun h => kangYSelect_isSome _ _ ha.1 (by linarith [ha.2])⟩
  · rw [isSome_map_opt]
    exact ⟨fun _ => ⟨by linarith [hb.1], hb.2⟩,
      fun h => kangYSelect_isSome _ _ (by linarith [hb.1]) hb.2⟩
  · simp only [Option.isSome_none, Bool.false_eq_true, false_iff]
    push_neg at ha hb
    rintro ⟨h1, h2⟩
    have g1 : 4000 < CCT := ha h1
    have g2 : 25000 < CCT := hb (le_of_lt g1)
    linarith

/-- **C7 (amended)**: the `y` cubic of `CCT_to_xy_kang2002` is selected by
the *closed-below-first* ranges `[1667, 2222]`, `(2222, 4000]`,
`(4000, 25000]`: at `CCT = 2222` the **first** cubic applies and at
`CCT = 4000` the **second** cubic applies (the chained `if/elif` tests
closed intervals and the earlier branch wins on the shared endpoints). -/
theorem kang_y_branch_selection (CCT x : ℚ) :
    (1667 ≤ CCT → CCT ≤ 2222 → kangYSelect CCT x = some (kangY1 x)) ∧
    (2222 < CCT → CCT ≤ 4000 → kangYSelect CCT x = some (kangY2 x)) ∧
    (4000 < CCT → CCT ≤ 25000 → kangYSelect CCT x = some (kangY3 x)) := by
  refine ⟨fun h1 h2 => ?_, fun h1 h2 => ?_, fun h1 h2 => ?_⟩
  · unfold kangYSelect
    rw [if_pos ⟨h1, h2⟩]
  · unfold kangYSelect
    rw [if_neg (by rintro ⟨-, h⟩; linarith), if_pos ⟨by linarith, h2⟩]
  · unfold kangYSelect
    rw [if_neg (by rintro ⟨-, h⟩; linarith),
      if_neg (by rintro ⟨-, h⟩; linarith), if_pos ⟨by linarith, h2⟩]

/-- Witness for C7 (amended) at the boundary `CCT = 2222`: the first `y`
cubic is the one selected. -/
theorem kang_y_branch_selection_witness :
    kangYSelect 2222 (kangX1 2222) = some (kangY1 (kangX1 2222)) :=
  (kang_y_branch_selection 2222 (kangX1 2222)).1 (by norm_num) (by norm_num)

/-- Counterexample to **C7 as stated**: the claim's half-open ranges put
`CCT = 2222` in the second cubic and `CCT = 4000` in the third, but
`CCT_to_xy_kang2002` evaluates the first cubic at 2222 and the second at
4000, and the competing cubics give different values there. -/
theorem kang_y_branch_counterexample :
    CCT_to_xy_kang2002 2222 = some (kangX1 2222, kangY1 (kangX1 2222)) ∧
    kangY1 (kangX1 2222) ≠ kangY2 (kangX1 2222) ∧
    CCT_to_xy_kang2002 4000 = some (kangX1 4000, kangY2 (kangX1 4000)) ∧
    kangY2 (kangX1 4000) ≠ kangY3 (kangX1 4000) := by
  refine ⟨?_, ?_, ?_, ?_⟩
  · norm_num [CCT_to_xy_kang2002, kangYSelect]
  · norm_num [kangX1, kangY1, kangY2]
  · norm_num [CCT_to_xy_kang2002, kangYSelect]
  · norm_num [kangX1, kangY2, kangY3]

/-! ### McCamy (1992) -/

/-- **C8 (amended)**: `xy_to_CCT_mccamy1992` performs no domain check and
returns a value for every `xy` with `y ≠ 0.1858`; at `y = 0.1858` the
denominator of `n` vanishes and Python float division raises
`ZeroDivisionError` instead of returning. -/
theorem xy_to_CCT_mccamy1992_total (x y : ℚ) (h : y ≠ 0.1858) :
    (xy_to_CCT_mccamy1992 x y).isSome = true := by
  unfold xy_to_CCT_mccamy1992
  rw [if_neg (sub_ne_zero.mpr h)]
  rfl

/-- Witness for C8 (amended) at the spec's example point
`(0.31271, 0.32902)`. -/
theorem xy_to_CCT_mccamy1992_total_witness :
    (xy_to_CCT_mccamy1992 0.31271 0.32902).isSome = true :=
  xy_to_CCT_mccamy1992_total 0.31271 0.32902 (by norm_num)

/-- Counterexample to **C8 as stated**: at `y = 0.1858` (the claim's own
singular line) `xy_to_CCT_mccamy1992` does **not** return a value — the
division raises `ZeroDivisionError`. -/
theorem xy_to_CCT_mccamy1992_counterexample :
    xy_to_CCT_mccamy1992 (2/5) 0.1858 = none := by
  unfold xy_to_CCT_mccamy1992
  rw [if_pos (by norm_num)]

/-! ### Ohno (2013) parabolic refinement -/

/-- **C2 (amended)**: in `uv_to_CCT_ohno2013` the parabolic solution
replaces the triangular one exactly when the **signed** triangular `Duv`
is below `0.002`: whenever the target lies below the chord
(`sign = -1`) the parabolic solution is used regardless of `|Duv|`; on the
`sign = 1` side the source's test coincides with `|Duv| < 0.002`; and the
triangular pair is returned unchanged only when `Duv ≥ 0.002`.
(`s` is the square-root oracle; the hypothesis only asks that it is
nonnegative on the one radicand `Duv` is computed from, as a real square
root is.) -/
theorem ohno_parabolic_branch (s : ℚ → ℚ) (e : OhnoTriple) (vx : ℚ)
    (hs : 0 ≤ s (e.dip ^ 2 - ohnoX s e ^ 2)) :
    (ohnoSign s e vx = -1 →
      ohnoSolution s e vx = ohnoParabolic s e vx) ∧
    (ohnoSign s e vx = 1 →
      (ohnoTriDuv s e vx < 0.002 ↔ |ohnoTriDuv s e vx| < 0.002)) ∧
    (ohnoTriDuv s e vx < 0.002 →
      ohnoSolution s e vx = ohnoParabolic s e vx) ∧
    (0.002 ≤ ohnoTriDuv s e vx →
      ohnoSolution s e vx = ohnoTriangular s e vx) := by
  refine ⟨?_, ?_, fun h => ?_, fun h => ?_⟩
  · intro hneg
    have hDuv : ohnoTriDuv s e vx ≤ 0 := by
      unfold ohnoTriDuv
      rw [hneg, mul_neg_one]
      linarith
    unfold ohnoSolution
    rw [if_pos (lt_of_le_of_lt hDuv (by norm_num))]
  · intro hpos
    have hDuv : 0 ≤ ohnoTriDuv s e vx := by
      unfold ohnoTriDuv
      rw [hpos, mul_one]
      exact hs
    rw [abs_of_nonneg hDuv]
  · unfold ohnoSolution
    rw [if_pos h]
  · unfold ohnoSolution
    rw [if_neg (not_lt.mpr h)]

/-- Witness for C2 (amended) at the concrete triple `tripleC2` with the
exact oracle `sqrtC2` and target `vx = 0`. -/
theorem ohno_parabolic_branch_witness :
    (ohnoSign sqrtC2 tripleC2 0 = -1 →
      ohnoSolution sqrtC2 tripleC2 0 = ohnoParabolic sqrtC2 tripleC2 0) ∧
    (ohnoSign sqrtC2 tripleC2 0 = 1 →
      (ohnoTriDuv sqrtC2 tripleC2 0 < 0.002 ↔
        |ohnoTriDuv sqrtC2 tripleC2 0| < 0.002)) ∧
    (ohnoTriDuv sqrtC2 tripleC2 0 < 0.002 →
      ohnoSolution sqrtC2 tripleC2 0 = ohnoParabolic sqrtC2 tripleC2 0) ∧
    (0.002 ≤ ohnoTriDuv sqrtC2 tripleC2 0 →
      ohnoSolution sqrtC2 tripleC2 0 = ohnoTriangular sqrtC2 tripleC2 0) :=
  ohno_parabolic_branch sqrtC2 tripleC2 0
    (by norm_num [sqrtC2, ohnoX, ohnoL, tripleC2])

/-- Counterexample to **C2 as stated**: at `tripleC2` (where `sqrtC2`
returns the exact square root of both radicands, as the first four
conjuncts check) the triangular `Duv` is `-0.003`, of magnitude
`≥ 0.002`, yet the returned pair is the parabolic solution, not the
triangular one: the source compares the signed `Duv`, not `|Duv|`, with
`0.002`. -/
theorem ohno_parabolic_branch_counterexample :
    sqrtC2 ((tripleC2.uin - tripleC2.uip) ^ 2 +
        (tripleC2.vin - tripleC2.vip) ^ 2) ^ 2 =
      (tripleC2.uin - tripleC2.uip) ^ 2 + (tripleC2.vin - tripleC2.vip) ^ 2 ∧
    0 ≤ sqrtC2 ((tripleC2.uin - tripleC2.uip) ^ 2 +
        (tripleC2.vin - tripleC2.vip) ^ 2) ∧
    sqrtC2 (tripleC2.dip ^ 2 - ohnoX sqrtC2 tripleC2 ^ 2) ^ 2 =
      tripleC2.dip ^ 2 - ohnoX sqrtC2 tripleC2 ^ 2 ∧
    0 ≤ sqrtC2 (tripleC2.dip ^ 2 - ohnoX sqrtC2 tripleC2 ^ 2) ∧
    ohnoTriDuv sqrtC2 tripleC2 0 = -(3/1000) ∧
    (0.002 : ℚ) ≤ |ohnoTriDuv sqrtC2 tripleC2 0| ∧
    ohnoSolution sqrtC2 tripleC2 0 ≠ ohnoTriangular sqrtC2 tripleC2 0 ∧
    ohnoSolution sqrtC2 tripleC2 0 = ohnoParabolic sqrtC2 tripleC2 0 := by
  refine ⟨?_, ?_, ?_, ?_, ?_, ?_, ?_, ?_⟩ <;>
    norm_num [ohnoSolution, ohnoTriangular, ohnoParabolic, ohnoTriDuv,
      ohnoTriT, ohnoSign, ohnoVtx, ohnoX, ohnoL, sqrtC2, tripleC2,
      Prod.mk.injEq]
  rw [abs_of_nonneg (by norm_num : (0:ℚ) ≤ 3/1000)]
  norm_num

/-! ### Method dispatch -/

lemma callRegistry_of_lookup_none {α : Type} (registry : List (String × α))
    (method : String) (h : registry.lookup method = none) :
    callRegistry registry method = Except.error PyDispatchError.missingMethod := by
  unfold callRegistry
  rw [h]

lemma callRegistry_not_ok {α : Type} (registry : List (String × α))
    (method : String) (h : registry.lookup method = none) :
    ∀ impl, callRegistry registry method ≠ Except.ok impl := by
  intro impl
  rw [callRegistry_of_lookup_none registry method h]
  intro hcontra
  cases hcontra

/-- **C4**: for every method name absent from the corresponding registry,
each of the four dispatch functions fails with the missing-method error
(the `TypeError` from calling the `None` returned by `dict.get`) and never
returns a result, whatever `cmfs` keyword accompanies the call. -/
theorem dispatch_unknown_method (method : String)
    (h1 : UV_TO_CCT_METHODS.lookup method = none)
    (h2 : CCT_TO_UV_METHODS.lookup method = none)
    (h3 : XY_TO_CCT_METHODS.lookup method = none)
    (h4 : CCT_TO_XY_METHODS.lookup method = none) :
    uv_to_CCT method none = Except.error PyDispatchError.missingMethod ∧
    CCT_to_uv method none = Except.error PyDispatchError.missingMethod ∧
    xy_to_CCT method = Except.error PyDispatchError.missingMethod ∧
    CCT_to_xy method = Except.error PyDispatchError.missingMethod ∧
    (∀ cmfs impl, uv_to_CCT method cmfs ≠ Except.ok impl) ∧
    (∀ cmfs impl, CCT_to_uv method cmfs ≠ Except.ok impl) := by
  have hm : method ≠ "Ohno 2013" := by
    intro he
    rw [he] at h1
    simp [UV_TO_CCT_METHODS, List.lookup] at h1
  refine ⟨?_, ?_, ?_, ?_, ?_, ?_⟩
  · unfold uv_to_CCT
    rw [if_neg hm]
    exact callRegistry_of_lookup_none _ _ h1
  · unfold CCT_to_uv
    rw [if_neg hm]
    exact callRegistry_of_lookup_none _ _ h2
  · exact callRegistry_of_lookup_none _ _ h3
  · exact callRegistry_of_lookup_none _ _ h4
  · intro cmfs impl
    unfold uv_to_CCT
    rw [if_neg hm]
    cases cmfs with
    | none => exact callRegistry_not_ok _ _ h1 impl
    | some nm =>
      show (if nm ≠ "CIE 1931 2 Degree Standard Observer" then
          Except.error PyDispatchError.invalidObserver
        else callRegistry UV_TO_CCT_METHODS method) ≠ Except.ok impl
      split_ifs with hnm
      · intro hcontra
        cases hcontra
      · exact callRegistry_not_ok _ _ h1 impl
  · intro cmfs impl
    unfold CCT_to_uv
    rw [if_neg hm]
    cases cmfs with
    | none => exact callRegistry_not_ok _ _ h2 impl
    | some nm =>
      show (if nm ≠ "CIE 1931 2 Degree Standard Observer" then
          Except.error PyDispatchError.invalidObserver
        else callRegistry CCT_TO_UV_METHODS method) ≠ Except.ok impl
      split_ifs with hnm
      · intro hcontra
        cases hcontra
      · exact callRegistry_not_ok _ _ h2 impl

/-- Witness for C4 at the unknown method name `"Bogus 1900"`. -/
theorem dispatch_unknown_method_witness :
    uv_to_CCT "Bogus 1900" none = Except.error PyDispatchError.missingMethod ∧
    CCT_to_uv "Bogus 1900" none = Except.error PyDispatchError.missingMethod ∧
    xy_to_CCT "Bogus 1900" = Except.error PyDispatchError.missingMethod ∧
    CCT_to_xy "Bogus 1900" = Except.error PyDispatchError.missingMethod ∧
    (∀ cmfs impl, uv_to_CCT "Bogus 1900" cmfs ≠ Except.ok impl) ∧
    (∀ cmfs impl, CCT_to_uv "Bogus 1900" cmfs ≠ Except.ok impl) :=
  dispatch_unknown_method "Bogus 1900" (by decide) (by decide) (by decide)
    (by decide)

/-- **C9**: every method name other than `"Ohno 2013"` goes through the
Robertson branch of `uv_to_CCT` / `CCT_to_uv`; supplying a `cmfs` keyword
whose observer is not the CIE 1931 2° standard observer makes that branch
raise its `ValueError` before any registry lookup or numeric work — even
for method names absent from the registry. -/
theorem robertson_observer_validation (method nm : String)
    (hm : method ≠ "Ohno 2013")
    (hnm : nm ≠ "CIE 1931 2 Degree Standard Observer") :
    uv_to_CCT method (some nm) = Except.error PyDispatchError.invalidObserver ∧
    CCT_to_uv method (some nm) = Except.error PyDispatchError.invalidObserver := by
  constructor
  · unfold uv_to_CCT
    rw [if_neg hm]
    exact if_pos hnm
  · unfold CCT_to_uv
    rw [if_neg hm]
    exact if_pos hnm

/-! ### Robertson (1968) table walk -/

lemma range'_cons (s n : ℕ) : List.range' s (n + 1) = s :: List.range' (s + 1) n :=
  rfl

lemma robLine_r_ge : ∀ i, 1 ≤ i → i ≤ 30 → (10 : ℚ) ≤ (robLine i).r := by
  decide

lemma robBreakAt_spec (s : ℚ → ℚ) (u v : ℚ) (i : ℕ) (ldt ldu ldv : ℚ)
    (h1 : 1 ≤ i) (h2 : i ≤ 30) (hl : 2 ≤ i → 0 < ldt) :
    (robBreakAt s u v i ldt ldu ldv).i = i ∧
    (robBreakAt s u v i ldt ldu ldv).last_dt = ldt ∧
    0 ≤ (robBreakAt s u v i ldt ldu ldv).dt ∧
    (i = 1 → (robBreakAt s u v i ldt ldu ldv).f = 0) ∧
    (2 ≤ i → 0 < ldt + (robBreakAt s u v i ldt ldu ldv).dt) ∧
    0 ≤ (robBreakAt s u v i ldt ldu ldv).f ∧
    (robBreakAt s u v i ldt ldu ldv).f < 1 ∧
    0 < (robBreakAt s u v i ldt ldu ldv).rBlend ∧
    (robBreakAt s u v i ldt ldu ldv).T =
      1000000 / (robBreakAt s u v i ldt ldu ldv).rBlend ∧
    0 < (robBreakAt s u v i ldt ldu ldv).T := by
  have hdt : (robBreakAt s u v i ldt ldu ldv).dt =
      -(if 0 < robDt s u v i then 0 else robDt s u v i) := rfl
  have hlast : (robBreakAt s u v i ldt ldu ldv).last_dt = ldt := rfl
  have hii : (robBreakAt s u v i ldt ldu ldv).i = i := rfl
  have hf : (robBreakAt s u v i ldt ldu ldv).f =
      if i = 1 then 0
      else (robBreakAt s u v i ldt ldu ldv).dt /
        (ldt + (robBreakAt s u v i ldt ldu ldv).dt) := rfl
  have hrB : (robBreakAt s u v i ldt ldu ldv).rBlend =
      (robLine (i - 1)).r * (robBreakAt s u v i ldt ldu ldv).f +
        (robLine i).r * (1 - (robBreakAt s u v i ldt ldu ldv).f) := rfl
  have hT : (robBreakAt s u v i ldt ldu ldv).T =
      1000000 / (robBreakAt s u v i ldt ldu ldv).rBlend := rfl
  have hdtnn : 0 ≤ (robBreakAt s u v i ldt ldu ldv).dt := by
    rw [hdt]
    split_ifs with h
    · norm_num
    · linarith [not_lt.mp h]
  have hden : 2 ≤ i → 0 < ldt + (robBreakAt s u v i ldt ldu ldv).dt := by
    intro h2i
    have := hl h2i
    linarith
  have hfbounds : 0 ≤ (robBreakAt s u v i ldt ldu ldv).f ∧
      (robBreakAt s u v i ldt ldu ldv).f < 1 := by
    rw [hf]
    split_ifs with h
    · norm_num
    · have h2i : 2 ≤ i := by omega
      have hd := hden h2i
      refine ⟨div_nonneg hdtnn (le_of_lt hd), ?_⟩
      rw [div_lt_one hd]
      linarith [hl h2i]
  have hrpos : 0 < (robBreakAt s u v i ldt ldu ldv).rBlend := by
    rw [hrB]
    have hri : 10 ≤ (robLine i).r := robLine_r_ge i h1 h2
    have hterm : 0 ≤ (robLine (i - 1)).r * (robBreakAt s u v i ldt ldu ldv).f := by
      by_cases h : i = 1
      · rw [hf, if_pos h, mul_zero]
      · have hge : 1 ≤ i - 1 := by omega
        have := robLine_r_ge (i - 1) hge (by omega)
        exact mul_nonneg (by linarith) hfbounds.1
    have hpos2 : 0 < (robLine i).r * (1 - (robBreakAt s u v i ldt ldu ldv).f) :=
      mul_pos (by linarith) (by linarith [hfbounds.2])
    linarith
  exact ⟨hii, hlast, hdtnn, fun h => by rw [hf, if_pos h], hden, hfbounds.1,
    hfbounds.2, hrpos, hT, by rw [hT]; exact div_pos (by norm_num) hrpos⟩

lemma robLoop_spec (s : ℚ → ℚ) (u v : ℚ) :
    ∀ n i, 1 ≤ i → i + n = 30 →
    ∀ ldt ldu ldv : ℚ,
    (2 ≤ i → ldt = robDt s u v (i - 1) ∧ 0 < ldt) →
    ∃ b : RobBreak,
      robLoop s u v (List.range' i (n + 1)) ldt ldu ldv = some b ∧
      i ≤ b.i ∧ b.i ≤ 30 ∧
      (∀ j, i ≤ j → j < b.i → 0 < robDt s u v j) ∧
      (b.i = 30 ∨ robDt s u v b.i ≤ 0) ∧
      0 ≤ b.dt ∧
      (b.i = 1 → b.f = 0) ∧
      (2 ≤ b.i → b.last_dt = robDt s u v (b.i - 1) ∧ 0 < b.last_dt ∧
        0 < b.last_dt + b.dt) ∧
      0 ≤ b.f ∧ b.f < 1 ∧ 0 < b.rBlend ∧
      b.T = 1000000 / b.rBlend ∧ 0 < b.T := by
  intro n
  induction n with
  | zero =>
    intro i h1 h30 ldt ldu ldv hinv
    have hi : i = 30 := by omega
    subst hi
    obtain ⟨s1, s2, s3, s4, s5, s6, s7, s8, s9, s10⟩ :=
      robBreakAt_spec s u v 30 ldt ldu ldv (by omega) (by omega)
        (fun h => (hinv h).2)
    refine ⟨robBreakAt s u v 30 ldt ldu ldv, ?_, ?_, ?_, ?_, ?_, s3, ?_, ?_,
      s6, s7, s8, s9, s10⟩
    · rw [range'_cons]
      simp only [robLoop]
      have hnil : List.range' (30 + 1) 0 = ([] : List ℕ) := rfl
      rw [if_pos (Or.inr hnil)]
    · rw [s1]
    · rw [s1]
    · intro j hj1 hj2
      rw [s1] at hj2
      omega
    · rw [s1]
      exact Or.inl rfl
    · rw [s1]
      intro h
      omega
    · rw [s1, s2]
      intro h
      exact ⟨(hinv h).1, (hinv h).2, s5 h⟩
  | succ n ih =>
    intro i h1 h30 ldt ldu ldv hinv
    by_cases hdt : robDt s u v i ≤ 0
    · obtain ⟨s1, s2, s3, s4, s5, s6, s7, s8, s9, s10⟩ :=
        robBreakAt_spec s u v i ldt ldu ldv h1 (by omega)
          (fun h => (hinv h).2)
      refine ⟨robBreakAt s u v i ldt ldu ldv, ?_, ?_, ?_, ?_, ?_, s3, ?_, ?_,
        s6, s7, s8, s9, s10⟩
      · rw [range'_cons]
        simp only [robLoop]
        rw [if_pos (Or.inl hdt)]
      · rw [s1]
      · rw [s1]; omega
      · intro j hj1 hj2
        rw [s1] at hj2
        omega
      · rw [s1]
        exact Or.inr hdt
      · rw [s1]
        exact s4
      · rw [s1, s2]
        intro h
        exact ⟨(hinv h).1, (hinv h).2, s5 h⟩
    · have hrest : List.range' (i + 1) (n + 1) ≠ [] := by
        rw [range'_cons]
        exact List.cons_ne_nil _ _
      have hdtpos : 0 < robDt s u v i := lt_of_not_le hdt
      obtain ⟨b, hbeq, p1, p2, p3, p4, p5, p6, p7, p8, p9, p10, p11, p12⟩ :=
        ih (i + 1) (by omega) (by omega) (robDt s u v i) (robDu s i)
          (robDv s i) (fun _ => ⟨rfl, hdtpos⟩)
      refine ⟨b, ?_, by omega, p2, ?_, p4, p5, p6, p7, p8, p9, p10, p11, p12⟩
      · rw [range'_cons]
        simp only [robLoop]
        rw [if_neg (not_or.mpr ⟨hdt, hrest⟩)]
        exact hbeq
      · intro j hj1 hj2
        rcases Nat.eq_or_lt_of_le hj1 with rfl | hj1'
        · exact hdtpos
        · exact p3 j hj1' hj2

/-- **C10**: `uv_to_CCT_robertson1968` is total: the walk breaks at the
first index in `1..30` whose `dt` is `≤ 0` (or at 30), the clamped `dt` at
the break is nonnegative, for a break index `≥ 2` the carried `last_dt` is
the (strictly positive) `dt` of the previous line so the interpolation
denominator `last_dt + dt` is strictly positive, at index 1 the fraction is
fixed to 0 without dividing, `f ∈ [0, 1)`, and the blended reciprocal
temperature is strictly positive, making `T = 1e6 / r` finite and
positive. -/
theorem uv_to_CCT_robertson1968_total (s : ℚ → ℚ) (u v : ℚ) :
    ∃ b : RobBreak,
      robLoop s u v (List.range' 1 30) 0 0 0 = some b ∧
      uv_to_CCT_robertson1968 s u v = some (b.T, -b.Duv) ∧
      1 ≤ b.i ∧ b.i ≤ 30 ∧
      (∀ j, 1 ≤ j → j < b.i → 0 < robDt s u v j) ∧
      (b.i = 30 ∨ robDt s u v b.i ≤ 0) ∧
      0 ≤ b.dt ∧
      (b.i = 1 → b.f = 0) ∧
      (2 ≤ b.i → b.last_dt = robDt s u v (b.i - 1) ∧ 0 < b.last_dt ∧
        0 < b.last_dt + b.dt) ∧
      0 ≤ b.f ∧ b.f < 1 ∧ 0 < b.rBlend ∧
      b.T = 1000000 / b.rBlend ∧ 0 < b.T := by
  obtain ⟨b, hbeq, p1, p2, p3, p4, p5, p6, p7, p8, p9, p10, p11, p12⟩ :=
    robLoop_spec s u v 29 1 (by omega) (by omega) 0 0 0
      (fun h => absurd h (by omega))
  refine ⟨b, hbeq, ?_, p1, p2, p3, p4, p5, p6, p7, p8, p9, p10, p11, p12⟩
  unfold uv_to_CCT_robertson1968
  rw [hbeq]
  rfl

/-- Witness for C9: an unknown method name combined with the CIE 1964 10°
observer still fails with the observer `ValueError`, not the
missing-method error. -/
theorem robertson_observer_validation_witness :
    uv_to_CCT "Bogus 1900" (some "CIE 1964 10 Degree Standard Observer") =
      Except.error PyDispatchError.invalidObserver ∧
    CCT_to_uv "Bogus 1900" (some "CIE 1964 10 Degree Standard Observer") =
      Except.error PyDispatchError.invalidObserver :=
  robertson_observer_validation "Bogus 1900"
    "CIE 1964 10 Degree Standard Observer" (by decide) (by decide)

end CCT
